import Mathlib

/-!
Verification development for the notes-app repository (Express/MongoDB backend
under `backend_notes`, React client under `frontend_notes`).

The backend's data model and request handlers, the validation middleware, the
client API adapter (`services/api.ts`) and the client data hook (`useNotes`)
are shallowly embedded below, translated from the JavaScript/TypeScript
sources.  Machine strings are Lean `String`s (a list of characters, matching
the JS string values the code manipulates), JS `Date.now()` timestamps are
`Nat` parameters, the MongoDB store is an explicit list of documents, and
fallible operations return `Option`.
-/

namespace NotesApp

/-! ## JS string primitives

`String.prototype.trim` removes leading and trailing whitespace.  We model the
whitespace class by the ASCII whitespace characters, which is exact for the
data handled by this application. -/

/-- Whitespace test used by the model of `String.prototype.trim`. -/
def isJsWhitespace (c : Char) : Bool :=
  c == ' ' || c == '\t' || c == '\n' || c == '\r' || c == '\x0b' || c == '\x0c'

/-- Model of `String.prototype.trim`: drop leading and trailing whitespace. -/
def jsTrim (s : String) : String :=
  ⟨((s.data.dropWhile isJsWhitespace).reverse.dropWhile isJsWhitespace).reverse⟩

/-- String length (number of characters), the measure used by the
`isLength` validators and the schema `minlength`/`maxlength` constraints. -/
def strLen (s : String) : Nat :=
  s.data.length

/-- Lexicographic comparison on character lists, used to model MongoDB's
ordering of string-valued sort keys (`sortBy = "title"`). -/
def charListLE : List Char → List Char → Bool
  | [], _ => true
  | _ :: _, [] => false
  | a :: as, b :: bs =>
      if a < b then true
      else if b < a then false
      else charListLE as bs

/-- `a ≤ b` on strings, via `charListLE`. -/
def strLE (a b : String) : Bool :=
  charListLE a.data b.data

/-! ## JSON values

Responses are serialized by `res.json(...)`; we model the emitted JSON values
with an explicit inductive so that response *shape* (which top-level keys are
present) is a provable property. -/

/-- JSON values as emitted by `res.json`. -/
inductive Json where
  | null
  | bool (b : Bool)
  | num (n : Int)
  | str (s : String)
  | arr (elems : List Json)
  | obj (fields : List (String × Json))

/-- Top-level keys of a JSON object (empty for non-objects). -/
def Json.keys : Json → List String
  | .obj fields => fields.map Prod.fst
  | _ => []

/-- Look up a top-level key of a JSON object. -/
def Json.lookup (j : Json) (k : String) : Option Json :=
  match j with
  | .obj fields => List.lookup k fields
  | _ => none

/-! ## The Note document (`routes/notes.js`, appended model: `noteSchema`)

Schema fields: `title`, `content` (required, trimmed, length-bounded),
`isArchived` (default `false`), `tags` (default `[]`, at most 10 entries),
plus mongoose's `timestamps: true` (`createdAt`, `updatedAt`), the store's
`_id` (an ObjectId) and the version key `__v`. -/

structure NoteDoc where
  _id : Nat
  title : String
  content : String
  tags : List String
  isArchived : Bool
  createdAt : Nat
  updatedAt : Nat
  version : Nat
  deriving DecidableEq, Repr

/-- One hexadecimal digit character. -/
def hexDigitChar (n : Nat) : Char :=
  if n < 10 then Char.ofNat (48 + n) else Char.ofNat (87 + n)

/-- Hexadecimal digit list of a natural number (most significant first). -/
def toHexList (n : Nat) : List Char :=
  if h : n < 16 then [hexDigitChar n]
  else toHexList (n / 16) ++ [hexDigitChar (n % 16)]
  termination_by n
  decreasing_by
    simp only [not_lt] at h
    omega

/-- Model of `ObjectId.prototype.toString()`: the 24-character zero-padded
hexadecimal rendering of the identifier. -/
def objectIdString (n : Nat) : String :=
  ⟨List.replicate (24 - (toHexList n).length) '0' ++ toHexList n⟩

/-- Serialization of a `.lean()` query result: `lean()` returns the raw
stored document, bypassing the schema's `toJSON`/`toObject` transform, so the
emitted object carries `_id` and `__v` and no `id` field.  Field set taken
from `noteSchema` plus mongoose's implicit `_id`/`__v`. -/
def NoteDoc.leanJson (d : NoteDoc) : Json :=
  .obj [("_id", .str (objectIdString d._id)),
        ("title", .str d.title),
        ("content", .str d.content),
        ("isArchived", .bool d.isArchived),
        ("tags", .arr (d.tags.map .str)),
        ("createdAt", .num (Int.ofNat d.createdAt)),
        ("updatedAt", .num (Int.ofNat d.updatedAt)),
        ("__v", .num (Int.ofNat d.version))]

/-- Serialization of a mongoose document through the schema's `toJSON`
transform (`routes/notes.js`, schema options): `ret.id = ret._id.toString();
delete ret._id; delete ret.__v`. -/
def NoteDoc.toJson (d : NoteDoc) : Json :=
  .obj [("title", .str d.title),
        ("content", .str d.content),
        ("isArchived", .bool d.isArchived),
        ("tags", .arr (d.tags.map .str)),
        ("createdAt", .num (Int.ofNat d.createdAt)),
        ("updatedAt", .num (Int.ofNat d.updatedAt)),
        ("id", .str (objectIdString d._id))]

/-! ## `GET /api/notes` — `getNotes` (`controllers/notesController.js`)

Query parameters with their controller defaults.  `archived` and `search`
arrive as strings; `page` and `limit` are parsed with `parseInt`, which we
model by taking them as naturals. -/

structure ListQuery where
  page : Nat := 1
  limit : Nat := 50
  sortBy : String := "createdAt"
  sortOrder : String := "desc"
  archived : String := "false"
  search : String := ""
  deriving Repr

/-- The equality filter built by `getNotes`: `{ isArchived: archived === "true" }`. -/
def ListQuery.filterArchived (q : ListQuery) : Bool :=
  q.archived == "true"

/-- Whether `getNotes` adds a `$text` clause: `if (search.trim()) ...`. -/
def ListQuery.hasTextFilter (q : ListQuery) : Bool :=
  jsTrim q.search != ""

/-- A document matches the `getNotes` filter iff its `isArchived` equals the
requested flag, and, when a text clause is present, the text index matches it.
`textMatch` is the (store-supplied) semantics of MongoDB `$text` matching. -/
def matchesFilter (textMatch : String → NoteDoc → Bool) (q : ListQuery)
    (d : NoteDoc) : Bool :=
  d.isArchived == q.filterArchived &&
    (!q.hasTextFilter || textMatch q.search d)

/-- Sort-key comparison for one schema field; an unknown `sortBy` field is
absent from every document, leaving documents mutually unordered. -/
def docFieldLE (field : String) (a b : NoteDoc) : Bool :=
  match field with
  | "createdAt" => a.createdAt ≤ b.createdAt
  | "updatedAt" => a.updatedAt ≤ b.updatedAt
  | "title" => strLE a.title b.title
  | _ => true

/-- The comparator induced by `sortOptions[sortBy] = sortOrder === "desc" ? -1 : 1`. -/
def sortComparator (sortBy sortOrder : String) (a b : NoteDoc) : Bool :=
  if sortOrder == "desc" then docFieldLE sortBy b a else docFieldLE sortBy a b

/-- Insert into a sorted list according to a boolean comparator. -/
def insertDoc {α : Type} (le : α → α → Bool) (a : α) : List α → List α
  | [] => [a]
  | b :: l => if le a b then a :: b :: l else b :: insertDoc le a l

/-- Insertion sort according to a boolean comparator (the model of the
store's `.sort(sortOptions)` step). -/
def sortDocs {α : Type} (le : α → α → Bool) : List α → List α
  | [] => []
  | a :: l => insertDoc le a (sortDocs le l)

/-- `Math.ceil(totalCount / limit)` on naturals (`limit > 0` in any request
the claims quantify over). -/
def totalPagesOf (totalCount limit : Nat) : Nat :=
  (totalCount + limit - 1) / limit

/-- The documents of the store matching the filter of a list request. -/
def filteredDocs (textMatch : String → NoteDoc → Bool) (store : List NoteDoc)
    (q : ListQuery) : List NoteDoc :=
  store.filter (matchesFilter textMatch q)

/-- The page slice returned by `getNotes`:
`find(filter).sort(sortOptions).skip((page-1)*limit).limit(limit).lean()`. -/
def getNotesItems (textMatch : String → NoteDoc → Bool) (store : List NoteDoc)
    (q : ListQuery) : List NoteDoc :=
  ((sortDocs (sortComparator q.sortBy q.sortOrder)
      (filteredDocs textMatch store q)).drop ((q.page - 1) * q.limit)).take
    q.limit

/-- `Note.countDocuments(filter)`: the number of matching documents,
independent of pagination. -/
def getNotesTotalCount (textMatch : String → NoteDoc → Bool)
    (store : List NoteDoc) (q : ListQuery) : Nat :=
  (filteredDocs textMatch store q).length

/-- The pagination object of the `getNotes` response. -/
def getNotesPagination (textMatch : String → NoteDoc → Bool)
    (store : List NoteDoc) (q : ListQuery) : Json :=
  let totalCount := getNotesTotalCount textMatch store q
  let totalPages := totalPagesOf totalCount q.limit
  .obj [("currentPage", .num (Int.ofNat q.page)),
        ("totalPages", .num (Int.ofNat totalPages)),
        ("totalCount", .num (Int.ofNat totalCount)),
        ("hasNextPage", .bool (decide (q.page < totalPages))),
        ("hasPrevPage", .bool (decide (1 < q.page))),
        ("limit", .num (Int.ofNat q.limit))]

/-- The full success envelope emitted by `getNotes`
(`res.status(200).json({success: true, data: notes, pagination: {...}})`);
the items are `.lean()` documents. -/
def getNotesResponse (textMatch : String → NoteDoc → Bool)
    (store : List NoteDoc) (q : ListQuery) : Json :=
  .obj [("success", .bool true),
        ("data", .arr ((getNotesItems textMatch store q).map NoteDoc.leanJson)),
        ("pagination", getNotesPagination textMatch store q)]

/-- The body of a `PUT /api/notes/:id` request, after JSON parsing. -/
structure UpdateBody where
  title : Option String := none
  content : Option String := none
  tags : Option (List String) := none
  isArchived : Option Bool := none
  deriving DecidableEq, Repr

/-- `sanitizeRequestBody` (`middleware/validation.js`): trims every
string-valued body field; arrays and booleans are untouched. -/
def sanitizeUpdateBody (b : UpdateBody) : UpdateBody :=
  { b with title := b.title.map jsTrim, content := b.content.map jsTrim }

/-- `param('id').isMongoId()`: a 24-character hexadecimal string. -/
def isMongoId (s : String) : Bool :=
  s.data.length == 24 &&
    s.data.all fun c => c.isDigit || ('a' ≤ c && c ≤ 'f') || ('A' ≤ c && c ≤ 'F')

/-- The `body(field).optional().trim().notEmpty().isLength({min, max})`
chain: an absent field passes; a present field is trimmed and must be
non-empty and within the length bounds. -/
def optionalFieldOk (minLen maxLen : Nat) (v : Option String) : Bool :=
  match v with
  | none => true
  | some s =>
      jsTrim s != "" && minLen ≤ strLen (jsTrim s) && strLen (jsTrim s) ≤ maxLen

/-- JS truthiness of a possibly-absent string field (`!req.body.title`):
falsy iff absent or the empty string. -/
def truthyStr (v : Option String) : Bool :=
  match v with
  | none => false
  | some s => s != ""

/-- `validateUpdateNote` (`middleware/validation.js`): the request reaches the
controller iff the id is a Mongo id, any provided title/content is non-empty
and length-bounded after trim, and the custom rule
`if (!req.body.title && !req.body.content) throw ...` raises no error.  The
body has already passed `sanitizeRequestBody` (applied router-wide), and the
chain's own `.trim()` sanitizers have rewritten title/content, so the custom
rule observes trimmed values. -/
def validateUpdateNotePasses (id : String) (b : UpdateBody) : Bool :=
  let s := sanitizeUpdateBody b
  isMongoId id &&
    optionalFieldOk 1 200 s.title &&
    optionalFieldOk 1 10000 s.content &&
    (truthyStr (s.title.map jsTrim) || truthyStr (s.content.map jsTrim))

/-! ## `POST /api/notes` — `createNote` (`controllers/notesController.js`)
plus the mongoose `save` semantics of `noteSchema`. -/

/-- The body of a `POST /api/notes` request.  The controller destructures
`{ title, content, tags = [] }` and keeps `tags` only when it is an array. -/
structure CreateBody where
  title : Option String := none
  content : Option String := none
  tags : Option (List String) := none
  deriving DecidableEq, Repr

/-- The controller's tag clean-up:
`Array.isArray(tags) ? tags.map(t => t.trim()).filter(Boolean) : []`
(with `tags = []` as destructuring default). -/
def cleanTags (tags : Option (List String)) : List String :=
  match tags with
  | none => []
  | some ts => (ts.map jsTrim).filter (fun t => t != "")

/-- Schema-level validity of a title (required, trimmed non-empty via
`minlength: 1` and the pre-save whitespace check, `maxlength: 200`). -/
def validTitle (t : String) : Bool :=
  jsTrim t != "" && strLen (jsTrim t) ≤ 200

/-- Schema-level validity of a content string (`minlength: 1`,
`maxlength: 10000`, pre-save whitespace check). -/
def validContent (c : String) : Bool :=
  jsTrim c != "" && strLen (jsTrim c) ≤ 10000

/-- `new Note(noteData)` followed by `note.save()`: the schema trims title
and content, checks the required/length/tag-count validators and the
pre-save whitespace guard, fills `isArchived` with its default `false`,
assigns a fresh `_id` and (via `timestamps: true`) sets both `createdAt`
and `updatedAt` to the current time.  A validation failure rejects the save. -/
def mongooseSaveNew (title content : Option String) (tags : List String)
    (oid now : Nat) : Option NoteDoc :=
  match title, content with
  | some t, some c =>
      if validTitle t && validContent c && tags.length ≤ 10 then
        some { _id := oid, title := jsTrim t, content := jsTrim c,
               tags := tags, isArchived := false,
               createdAt := now, updatedAt := now, version := 0 }
      else none
  | _, _ => none

/-- The `createNote` controller body: builds `noteData` from the request
(trimming title/content, cleaning tags) and saves it. -/
def createNoteModel (b : CreateBody) (oid now : Nat) : Option NoteDoc :=
  mongooseSaveNew (b.title.map jsTrim) (b.content.map jsTrim)
    (cleanTags b.tags) oid now

/-- `Note.findById(id)` over the store: the first document whose `_id`
matches. -/
def findById (store : List NoteDoc) (oid : Nat) : Option NoteDoc :=
  store.find? fun d => d._id == oid

/-- Persisting a document: every stored document with the same `_id` is
replaced (ids are unique in a real store; `List.map` keeps the model total). -/
def saveById (store : List NoteDoc) (d : NoteDoc) : List NoteDoc :=
  store.map fun e => if e._id == d._id then d else e

/-- The update object built by `updateNote`: only provided fields appear;
title/content are trimmed, tags cleaned, `isArchived` coerced with
`Boolean(...)`. -/
def applyUpdate (d : NoteDoc) (p : UpdateBody) (now : Nat) : NoteDoc :=
  { d with
    title := match p.title with | some t => jsTrim t | none => d.title
    content := match p.content with | some c => jsTrim c | none => d.content
    tags := match p.tags with | some ts => (ts.map jsTrim).filter (fun t => t != "") | none => d.tags
    isArchived := p.isArchived.getD d.isArchived
    updatedAt := now }

/-- `runValidators: true` on `findByIdAndUpdate` re-checks the validators of
the updated paths. -/
def patchValid (p : UpdateBody) : Bool :=
  (match p.title with | some t => validTitle t | none => true) &&
    (match p.content with | some c => validContent c | none => true) &&
    (match p.tags with
     | some ts => ((ts.map jsTrim).filter (fun t => t != "")).length ≤ 10
     | none => true)

/-- `Note.findByIdAndUpdate(id, updateData, {new: true, runValidators: true})`
as run by the `updateNote` controller: `none` models both the not-found path
and a validator rejection; on success the post-update document is returned
(`new: true`) alongside the updated store. -/
def updateNoteModel (store : List NoteDoc) (oid : Nat) (p : UpdateBody)
    (now : Nat) : Option (NoteDoc × List NoteDoc) :=
  match findById store oid with
  | none => none
  | some d =>
      if patchValid p then
        let d' := applyUpdate d p now
        some (d', saveById store d')
      else none

/-! ## `PATCH /api/notes/:id/archive` — `toggleArchiveNote`. -/

/-- `toggleArchiveNote`: find the note, flip `isArchived`, save (which bumps
`updatedAt` through `timestamps: true`), and return the updated document. -/
def toggleArchiveModel (store : List NoteDoc) (oid now : Nat) :
    Option (NoteDoc × List NoteDoc) :=
  match findById store oid with
  | none => none
  | some d =>
      let d' := { d with isArchived := !d.isArchived, updatedAt := now }
      some (d', saveById store d')

/-! ## The remaining response envelopes

Every remaining `res.json(...)` emitter of the notes API, translated from
`controllers/notesController.js`, `middleware/validation.js`,
`middleware/errorHandler.js` and `index.js`. -/

/-- The outcome of one HTTP attempt as seen by the adapter: a success value,
or an axios failure carrying `error.response?.status` (`none` models a
network-layer failure with no response). -/
inductive ReqOutcome (α : Type) where
  | ok (v : α)
  | fail (status : Option Nat)
  deriving DecidableEq, Repr

/-- `error.response?.status && status >= 400 && status < 500`. -/
def is4xx (status : Option Nat) : Bool :=
  match status with
  | some s => 400 ≤ s && s < 500
  | none => false

/-- The loop body of `retryRequest`: `i` is the current attempt index and
`fuel = attempts - i` the remaining iterations.  On failure the error is
rethrown when this was the last attempt or the status is 4xx; otherwise the
next attempt runs (after the backoff delay, which has no effect on the
result).  `trace` gives the outcome of each attempt. -/
def retryGo {α : Type} (trace : Nat → ReqOutcome α) (i : Nat) :
    Nat → ReqOutcome α
  | 0 => .fail none
  | fuel + 1 =>
      match trace i with
      | .ok v => .ok v
      | .fail st =>
          if fuel == 0 then .fail st
          else if is4xx st then .fail st
          else retryGo trace (i + 1) fuel

/-- `retryRequest(requestFn, attempts)` (`services/api.ts`). -/
def retryRequest {α : Type} (attempts : Nat) (trace : Nat → ReqOutcome α) :
    ReqOutcome α :=
  retryGo trace 0 attempts

/-- `API_CONFIG.RETRY_ATTEMPTS` (`frontend_notes/src/config/constants.ts`). -/
def RETRY_ATTEMPTS : Nat := 3

/-- The adapter's `createNote`: the POST — a mutating call — is wrapped in
`retryRequest` exactly like the reads. -/
def createNoteAdapter {α : Type} (trace : Nat → ReqOutcome α) : ReqOutcome α :=
  retryRequest RETRY_ATTEMPTS trace

/-- The adapter's `updateNote` (PUT), likewise wrapped in `retryRequest`. -/
def updateNoteAdapter {α : Type} (trace : Nat → ReqOutcome α) : ReqOutcome α :=
  retryRequest RETRY_ATTEMPTS trace

/-- The adapter's `deleteNote` (DELETE), likewise wrapped in `retryRequest`. -/
def deleteNoteAdapter {α : Type} (trace : Nat → ReqOutcome α) : ReqOutcome α :=
  retryRequest RETRY_ATTEMPTS trace

/-- The adapter's `toggleArchiveNote` (PATCH), likewise wrapped in
`retryRequest`. -/
def toggleArchiveAdapter {α : Type} (trace : Nat → ReqOutcome α) : ReqOutcome α :=
  retryRequest RETRY_ATTEMPTS trace

/-! ## Client data hook (`hooks/useNotes.ts`) -/

/-- A note as held by the frontend (`types`, interface `Note`). -/
structure FrontNote where
  id : String
  title : String
  content : String
  isArchived : Bool
  deriving DecidableEq, Repr

/-- The hook's pagination state.  `totalCount` is a JS number that the hook
increments/decrements without clamping, hence `Int`. -/
structure HookPagination where
  currentPage : Nat := 1
  totalPages : Nat := 1
  totalCount : Int := 0
  hasNextPage : Bool := false
  hasPrevPage : Bool := false
  limit : Nat := 20
  deriving DecidableEq, Repr

/-- The part of the `useNotes` state the mutating operations touch. -/
structure NotesHookState where
  notes : List FrontNote
  pagination : HookPagination
  deriving DecidableEq, Repr

/-- The hook's `deleteNote` success path (`hooks/useNotes.ts`): after
`apiDeleteNote(id)` resolves, the cached list is filtered by
`note.id !== id` and `totalCount` is replaced by `prev.totalCount - 1`,
unconditionally. -/
def hookDeleteNote (st : NotesHookState) (id : String) : NotesHookState :=
  { st with
    notes := st.notes.filter fun n => n.id != id
    pagination := { st.pagination with totalCount := st.pagination.totalCount - 1 } }

/-! ## Concrete instances used by counterexamples and witnesses -/

/-- A text-index semantics that matches nothing (the text clause is absent in
the requests this instantiates). -/
def tmFalse : String → NoteDoc → Bool := fun _ _ => false

/-- A simple concrete `$text` semantics: the query equals the title. -/
def titleMatch : String → NoteDoc → Bool := fun query d => query == d.title

/-- A plain non-archived document with the given id and creation time. -/
def mkDoc (i : Nat) : NoteDoc :=
  { _id := i, title := "note", content := "content", tags := [],
    isArchived := false, createdAt := i, updatedAt := i, version := 0 }

/-- A store of 47 non-archived notes (the spec's pagination example). -/
def store47 : List NoteDoc := (List.range 47).map mkDoc

/-- A list request with `limit = 10` and all other parameters defaulted. -/
def q47 : ListQuery := { limit := 10 }

/-- An archived document whose title is `"alpha"`. -/
def archivedDoc : NoteDoc :=
  { _id := 7, title := "alpha", content := "beta", tags := [],
    isArchived := true, createdAt := 0, updatedAt := 0, version := 0 }

/-- A list request combining `archived=true` with a non-blank `search`. -/
def qSearchArchived : ListQuery := { archived := "true", search := "alpha" }

/-- A well-formed MongoDB ObjectId string. -/
def validObjectId : String := "507f1f77bcf86cd799439011"

/-- An attempt trace whose first attempt is a network-layer failure (no
response) and whose later attempts succeed. -/
def netThenOkTrace : Nat → ReqOutcome Nat :=
  fun i => if i == 0 then .fail none else .ok 7

/-- A list request with every parameter left at its controller default. -/
def qDefault : ListQuery := {}

/-- Spec-side acceptance condition for an update request (the amended reading
of the validation layer): well-formed id, any provided title/content
non-empty and length-bounded after trimming, and at least one of
title/content provided non-blank. -/
def updateAcceptableSpec (id : String) (b : UpdateBody) : Prop :=
  isMongoId id = true ∧
    (∀ t, b.title = some t → jsTrim t ≠ "" ∧ strLen (jsTrim t) ≤ 200) ∧
    (∀ c, b.content = some c → jsTrim c ≠ "" ∧ strLen (jsTrim c) ≤ 10000) ∧
    ((∃ t, b.title = some t ∧ jsTrim t ≠ "") ∨
      (∃ c, b.content = some c ∧ jsTrim c ≠ ""))

/-- The spec's create-scenario payload, with tags exercising trimming and
empty-entry dropping. -/
def groceriesBody : CreateBody :=
  { title := some "Groceries", content := some "Milk, eggs",
    tags := some [" a", "b ", " "] }

/-- A patch that touches only `isArchived`. -/
def archOnlyPatch : UpdateBody := { isArchived := some true }

/-- `mkDoc 3` after `archOnlyPatch` is applied at time 10. -/
def mkDoc3Arch : NoteDoc :=
  { _id := 3, title := "note", content := "content", tags := [],
    isArchived := true, createdAt := 3, updatedAt := 10, version := 0 }

/-- A hook state caching one note and reporting five on the server. -/
def stEx : NotesHookState :=
  { notes := [{ id := "a", title := "t", content := "c", isArchived := false }],
    pagination := { totalCount := 5 } }

/-! ## Helper lemmas -/

theorem mem_insertDoc {α : Type} (le : α → α → Bool) (a x : α) (l : List α) :
    x ∈ insertDoc le a l ↔ x = a ∨ x ∈ l := by
  induction l with
  | nil => simp [insertDoc]
  | cons b t ih =>
      simp only [insertDoc]
      split
      · simp
      · simp only [List.mem_cons, ih]
        tauto

theorem mem_sortDocs {α : Type} (le : α → α → Bool) (x : α) (l : List α) :
    x ∈ sortDocs le l ↔ x ∈ l := by
  induction l with
  | nil => simp [sortDocs]
  | cons a t ih => simp [sortDocs, mem_insertDoc, ih]

theorem length_insertDoc {α : Type} (le : α → α → Bool) (a : α) (l : List α) :
    (insertDoc le a l).length = l.length + 1 := by
  induction l with
  | nil => simp [insertDoc]
  | cons b t ih =>
      simp only [insertDoc]
      split
      · simp
      · simp [ih]

theorem length_sortDocs {α : Type} (le : α → α → Bool) (l : List α) :
    (sortDocs le l).length = l.length := by
  induction l with
  | nil => simp [sortDocs]
  | cons a t ih => simp [sortDocs, length_insertDoc, ih]

theorem head?_dropWhile_not {α : Type} (p : α → Bool) (l : List α) :
    ∀ a, (l.dropWhile p).head? = some a → p a = false := by
  induction l with
  | nil => simp [List.dropWhile]
  | cons x t ih =>
      intro a h
      rw [List.dropWhile_cons] at h
      split at h
      · exact ih a h
      · next hpx =>
          simp only [List.head?_cons, Option.some.injEq] at h
          subst h
          simpa using hpx

theorem dropWhile_eq_self_of_head? {α : Type} (p : α → Bool) (l : List α)
    (h : ∀ a, l.head? = some a → p a = false) : l.dropWhile p = l := by
  cases l with
  | nil => simp
  | cons x t =>
      rw [List.dropWhile_cons]
      simp [h x rfl]

theorem dropWhile_idem {α : Type} (p : α → Bool) (l : List α) :
    (l.dropWhile p).dropWhile p = l.dropWhile p :=
  dropWhile_eq_self_of_head? p _ (head?_dropWhile_not p l)

/-- Trimming a list whose head is not whitespace from the right, then from
the left again, removes nothing on the left. -/
theorem dropWhile_reverse_dropWhile_reverse {α : Type} (p : α → Bool)
    (A : List α) (hA : ∀ a, A.head? = some a → p a = false) :
    ((A.reverse.dropWhile p).reverse).dropWhile p =
      (A.reverse.dropWhile p).reverse := by
  cases A with
  | nil => simp
  | cons a t =>
      have hpa : p a = false := hA a rfl
      rw [List.reverse_cons, List.dropWhile_append]
      split
      · simp [List.dropWhile_cons, hpa]
      · rw [List.reverse_append]
        simp [List.dropWhile_cons, hpa]

theorem jsTrim_idem (s : String) : jsTrim (jsTrim s) = jsTrim s := by
  unfold jsTrim
  refine congrArg String.mk ?_
  show ((((s.data.dropWhile isJsWhitespace).reverse.dropWhile
      isJsWhitespace).reverse.dropWhile isJsWhitespace).reverse.dropWhile
      isJsWhitespace).reverse = _
  rw [dropWhile_reverse_dropWhile_reverse isJsWhitespace _
    (head?_dropWhile_not isJsWhitespace s.data)]
  rw [List.reverse_reverse, dropWhile_idem]

theorem jsTrim_ne_empty_iff (s : String) : jsTrim s ≠ "" ↔ (jsTrim s).data ≠ [] := by
  constructor
  · intro h hdata
    exact h (congrArg String.mk hdata)
  · intro h heq
    exact h (congrArg String.data heq)

theorem toHexList_ne_nil (n : Nat) : toHexList n ≠ [] := by
  rw [toHexList]
  split
  · simp
  · simp

theorem objectIdString_ne_empty (n : Nat) : objectIdString n ≠ "" := by
  unfold objectIdString
  intro h
  have hdata := congrArg String.data h
  simp only at hdata
  rcases List.append_eq_nil.mp hdata with ⟨-, h2⟩
  exact toHexList_ne_nil n h2

theorem findById_saveById (store : List NoteDoc) (oid : Nat) (d e : NoteDoc)
    (h : findById store oid = some d) (he : e._id = oid) :
    findById (saveById store e) oid = some e := by
  induction store with
  | nil => simp [findById] at h
  | cons a t ih =>
      by_cases ha : a._id = oid
      · unfold saveById findById
        rw [List.map_cons]
        have hcond : (a._id == e._id) = true := by simp [he, ha]
        rw [List.find?_cons_of_pos]
        · simp [hcond]
        · simp [ha, he]
      · have ht : findById t oid = some d := by
          unfold findById at h ⊢
          rw [List.find?_cons_of_neg] at h
          · exact h
          · simp [ha]
        have ih' := ih ht
        unfold saveById findById at ih' ⊢
        rw [List.map_cons, List.find?_cons_of_neg]
        · exact ih'
        · have hce : (a._id == e._id) = false := by simp [he, ha]
          simp [hce, ha]

theorem totalPagesOf_zero (k : Nat) (hk : 0 < k) : totalPagesOf 0 k = 0 := by
  unfold totalPagesOf
  exact Nat.div_eq_of_lt (by omega)

theorem totalPagesOf_step (n k : Nat) (hk : 0 < k) (hn : 0 < n) :
    totalPagesOf n k = totalPagesOf (n - k) k + 1 := by
  unfold totalPagesOf
  rcases le_or_lt k n with h | h
  · have heq : n + k - 1 = (n - k + k - 1) + k := by omega
    rw [heq, Nat.add_div_right _ hk]
  · have h1 : n - k = 0 := by omega
    have h2 : (n + k - 1) / k = 1 :=
      Nat.div_eq_of_lt_le (by omega) (by omega)
    have h3 : (0 + k - 1) / k = 0 := Nat.div_eq_of_lt (by omega)
    rw [h1, h2, h3]

/-- Sum of the page-slice sizes over all pages equals the list length. -/
theorem sum_slices {α : Type} (k : Nat) (hk : 0 < k) :
    ∀ (n : Nat) (l : List α), l.length = n →
      (∑ i ∈ Finset.range (totalPagesOf n k),
        ((l.drop (i * k)).take k).length) = n := by
  intro n
  induction n using Nat.strong_induction_on with
  | _ n ih =>
      intro l hl
      rcases Nat.eq_zero_or_pos n with h0 | hpos
      · subst h0
        rw [totalPagesOf_zero k hk]
        simp
      · rw [totalPagesOf_step n k hk hpos, Finset.sum_range_succ']
        have hdrop : ∀ i : Nat,
            ((l.drop ((i + 1) * k)).take k).length =
              (((l.drop k).drop (i * k)).take k).length := by
          intro i
          rw [List.drop_drop]
          ring_nf
        have ih' := ih (n - k) (by omega) (l.drop k)
          (by rw [List.length_drop]; omega)
        calc (∑ i ∈ Finset.range (totalPagesOf (n - k) k),
                ((l.drop ((i + 1) * k)).take k).length) +
              ((l.drop (0 * k)).take k).length
            = (∑ i ∈ Finset.range (totalPagesOf (n - k) k),
                (((l.drop k).drop (i * k)).take k).length) +
              ((l.drop (0 * k)).take k).length := by
              rw [Finset.sum_congr rfl (fun i _ => hdrop i)]
          _ = (n - k) + ((l.drop (0 * k)).take k).length := by rw [ih']
          _ = n := by
              simp only [Nat.zero_mul, List.drop_zero, List.length_take, hl]
              omega

theorem strLen_pos_iff (s : String) : 1 ≤ strLen s ↔ s ≠ "" := by
  cases s with
  | mk l =>
      cases l with
      | nil => decide
      | cons c t =>
          constructor
          · intro _ h
            have hd := congrArg String.data h
            simp at hd
          · intro _
            simp [strLen]

/-! ## The claims -/

/-- Claim C1, counterexample: a list request combining a present `textQuery`
(`search = "alpha"`) with `archived = "true"` returns an archived note — the
`getNotes` filter keeps `isArchived: archived === "true"` unchanged when a
text clause is added, so the items are not restricted to non-archived notes. -/
theorem getNotes_search_returns_archived_counterexample :
    getNotesItems titleMatch [archivedDoc] qSearchArchived = [archivedDoc] ∧
    archivedDoc.isArchived = true ∧
    (jsTrim qSearchArchived.search != "") = true :=
  ⟨by decide, by decide, by decide⟩

/-- Claim C1 (amended): when `textQuery` is present, the returned items are
those whose `isArchived` equals the request's `archived` parameter and that
match the text query, and the result is the skip/limit slice of the list
sorted by the supplied `sortBy`/`sortOrder` comparator — relevance ordering
is not applied. -/
theorem getNotes_search_filter_semantics (tm : String → NoteDoc → Bool)
    (store : List NoteDoc) (q : ListQuery) (d : NoteDoc)
    (hd : d ∈ getNotesItems tm store q) :
    d.isArchived = q.filterArchived ∧
    (q.hasTextFilter = true → tm q.search d = true) ∧
    getNotesItems tm store q =
      ((sortDocs (sortComparator q.sortBy q.sortOrder)
        (filteredDocs tm store q)).drop ((q.page - 1) * q.limit)).take
        q.limit := by
  have hmem : d ∈ filteredDocs tm store q := by
    have h1 := List.take_subset _ _ hd
    have h2 := List.drop_subset _ _ h1
    exact (mem_sortDocs _ _ _).mp h2
  have hm : matchesFilter tm q d = true := (List.mem_filter.mp hmem).2
  unfold matchesFilter at hm
  rw [Bool.and_eq_true] at hm
  refine ⟨eq_of_beq hm.1, ?_, rfl⟩
  intro htext
  have h2 := hm.2
  rw [htext] at h2
  simpa using h2

/-- Claim C1, witness for the amended theorem at a concrete one-note store. -/
theorem getNotes_search_filter_semantics_witness :
    (mkDoc 0 ∈ getNotesItems tmFalse [mkDoc 0] qDefault) ∧
    ((mkDoc 0).isArchived = qDefault.filterArchived ∧
     (qDefault.hasTextFilter = true → tmFalse qDefault.search (mkDoc 0) = true) ∧
     getNotesItems tmFalse [mkDoc 0] qDefault =
       ((sortDocs (sortComparator qDefault.sortBy qDefault.sortOrder)
         (filteredDocs tmFalse [mkDoc 0] qDefault)).drop
         ((qDefault.page - 1) * qDefault.limit)).take qDefault.limit) :=
  ⟨by decide,
   getNotes_search_filter_semantics tmFalse [mkDoc 0] qDefault (mkDoc 0)
     (by decide)⟩

/-- Claim C2, counterexample: a patch carrying only `isArchived` (or only
`tags`) with a well-formed id is rejected by `validateUpdateNote` — the
custom rule demands a truthy `title` or `content`. -/
theorem validateUpdateNote_rejects_field_only_patches :
    validateUpdateNotePasses validObjectId archOnlyPatch = false ∧
    validateUpdateNotePasses validObjectId { tags := some ["work"] } = false ∧
    isMongoId validObjectId = true ∧
    archOnlyPatch.isArchived = some true :=
  ⟨by decide, by decide, by decide, by decide⟩

/-- Claim C2 (amended): an update request passes validation iff the id is
well-formed, any provided title/content is non-empty and within its length
bound after trimming, and at least one of title/content is provided
non-blank — so patches touching only `tags` or only `isArchived` fail
validation. -/
theorem validateUpdateNote_characterization (id : String) (b : UpdateBody) :
    validateUpdateNotePasses id b = true ↔ updateAcceptableSpec id b := by
  unfold validateUpdateNotePasses sanitizeUpdateBody updateAcceptableSpec
  cases hbt : b.title <;> cases hbc : b.content <;>
    simp [optionalFieldOk, truthyStr, jsTrim_idem, Bool.and_eq_true,
      Bool.or_eq_true, bne_iff_ne, decide_eq_true_eq, strLen_pos_iff,
      hbt, hbc] <;> tauto

/-- Claim C3: the items of a list response are the raw `.lean()` store
documents — they are serialized with the internal `_id` and `__v` fields and
without the public `id` field, because `.lean()` bypasses the schema's
`toJSON` transform (the transform the code itself relies on elsewhere:
`updateNote` sets `lean: false` "for proper transformation", and the
frontend `Note` type and the `useNotes` hook match on `note.id`). -/
theorem getNotes_items_expose_internal_fields (tm : String → NoteDoc → Bool)
    (store : List NoteDoc) (q : ListQuery) (d : NoteDoc) :
    (getNotesResponse tm store q).lookup "data" =
      some (.arr ((getNotesItems tm store q).map NoteDoc.leanJson)) ∧
    "_id" ∈ (NoteDoc.leanJson d).keys ∧
    "__v" ∈ (NoteDoc.leanJson d).keys ∧
    "id" ∉ (NoteDoc.leanJson d).keys := by
  refine ⟨rfl, ?_, ?_, ?_⟩ <;> simp [NoteDoc.leanJson, Json.keys]

/-- Claim C4, counterexample: the adapter's create — a mutating call — is
wrapped in `retryRequest` like the reads, so a network-layer failure with no
response on the first attempt is retried and the call succeeds on the second
attempt instead of failing. -/
theorem createNote_adapter_retries_network_failure :
    createNoteAdapter netThenOkTrace = .ok 7 ∧
    netThenOkTrace 0 = .fail none :=
  ⟨by decide, by decide⟩

/-- Claim C4 (amended): one retry policy applies uniformly to every adapter
operation, the mutating ones included: a 4xx response is never retried (the
call fails immediately with that error), while a network-layer failure with
no response is retried. -/
theorem retry_policy_uniform {α : Type} (attempts : Nat)
    (trace : Nat → ReqOutcome α) (s : Nat) (h2 : 2 ≤ attempts) :
    createNoteAdapter trace = retryRequest RETRY_ATTEMPTS trace ∧
    updateNoteAdapter trace = retryRequest RETRY_ATTEMPTS trace ∧
    deleteNoteAdapter trace = retryRequest RETRY_ATTEMPTS trace ∧
    toggleArchiveAdapter trace = retryRequest RETRY_ATTEMPTS trace ∧
    (trace 0 = .fail (some s) → 400 ≤ s → s < 500 →
      retryRequest attempts trace = .fail (some s)) ∧
    (∀ w : α, trace 0 = .fail none → trace 1 = .ok w →
      retryRequest attempts trace = .ok w) := by
  obtain ⟨k, rfl⟩ : ∃ k, attempts = k + 2 := ⟨attempts - 2, by omega⟩
  refine ⟨rfl, rfl, rfl, rfl, ?_, ?_⟩
  · intro h0 h4a h4b
    have h4 : is4xx (some s) = true := by simp [is4xx, h4a, h4b]
    simp [retryRequest, retryGo, h0, h4]
  · intro w h0 h1
    simp [retryRequest, retryGo, h0, is4xx, h1]

/-- Claim C4, witness: a 404 on the first attempt fails immediately
(never retried), and a network failure followed by a success is retried. -/
theorem retry_policy_uniform_witness :
    retryRequest 3 (fun _ => (ReqOutcome.fail (some 404) : ReqOutcome Nat)) =
      .fail (some 404) ∧
    retryRequest 3 netThenOkTrace = .ok 7 := by
  constructor
  · exact (retry_policy_uniform 3 (fun _ => .fail (some 404)) 404
      (by decide)).2.2.2.2.1 rfl (by decide) (by decide)
  · exact (retry_policy_uniform 3 netThenOkTrace 404
      (by decide)).2.2.2.2.2 7 (by decide) (by decide)

/-- Claim C6: for every filter and positive limit the pagination metadata is
`totalCount` = number of matching documents (pagination-independent),
`totalPages = ceil(totalCount/limit)`, `hasNextPage = page < totalPages`,
`hasPrevPage = page > 1`; consequently the page sizes over pages
`1..totalPages` sum to `totalCount`, and `hasNextPage` is false exactly on
the last page. -/
theorem getNotes_pagination_law (tm : String → NoteDoc → Bool)
    (store : List NoteDoc) (q : ListQuery) (hl : 0 < q.limit) :
    (getNotesPagination tm store q).lookup "totalCount" =
      some (.num (Int.ofNat (getNotesTotalCount tm store q))) ∧
    (getNotesPagination tm store q).lookup "totalPages" =
      some (.num (Int.ofNat
        (totalPagesOf (getNotesTotalCount tm store q) q.limit))) ∧
    (getNotesPagination tm store q).lookup "hasNextPage" =
      some (.bool (decide
        (q.page < totalPagesOf (getNotesTotalCount tm store q) q.limit))) ∧
    (getNotesPagination tm store q).lookup "hasPrevPage" =
      some (.bool (decide (1 < q.page))) ∧
    (∑ i ∈ Finset.range (totalPagesOf (getNotesTotalCount tm store q) q.limit),
      (getNotesItems tm store { q with page := i + 1 }).length) =
      getNotesTotalCount tm store q ∧
    (∀ p : Nat, 1 ≤ p →
      p ≤ totalPagesOf (getNotesTotalCount tm store q) q.limit →
      ((decide (p < totalPagesOf (getNotesTotalCount tm store q) q.limit)
        = false) ↔
        p = totalPagesOf (getNotesTotalCount tm store q) q.limit)) := by
  refine ⟨rfl, rfl, rfl, rfl, ?_, ?_⟩
  · have hlen :
        (sortDocs (sortComparator q.sortBy q.sortOrder)
          (filteredDocs tm store q)).length = getNotesTotalCount tm store q := by
      rw [length_sortDocs]
      rfl
    exact sum_slices q.limit hl (getNotesTotalCount tm store q)
      (sortDocs (sortComparator q.sortBy q.sortOrder)
        (filteredDocs tm store q)) hlen
  · intro p h1 h2
    constructor
    · intro hfalse
      have hnl := of_decide_eq_false hfalse
      omega
    · intro heq
      subst heq
      exact decide_eq_false (by omega)

/-- Claim C6, witness: the spec's example — 47 notes with limit 10 give 5
pages whose sizes sum to 47, page 5 holds 7 items, and totalPages is 5. -/
theorem getNotes_pagination_law_witness :
    (0 < q47.limit) ∧
    ((∑ i ∈ Finset.range (totalPagesOf (getNotesTotalCount tmFalse store47 q47)
        q47.limit),
      (getNotesItems tmFalse store47 { q47 with page := i + 1 }).length) =
      getNotesTotalCount tmFalse store47 q47) ∧
    (getNotesItems tmFalse store47 { q47 with page := 5 }).length = 7 ∧
    getNotesTotalCount tmFalse store47 q47 = 47 ∧
    totalPagesOf 47 10 = 5 :=
  ⟨by decide,
   (getNotes_pagination_law tmFalse store47 q47 (by decide)).2.2.2.2.1,
   by decide, by decide, by decide⟩

/-- Claim C7: a valid create payload yields a saved entity with the
(non-empty) serialized `id`, `createdAt = updatedAt`, `isArchived = false`,
and tags equal to the submitted tags trimmed entry-wise with empty entries
dropped, in submission order. -/
theorem createNote_spec (b : CreateBody) (t c : String) (oid now : Nat)
    (ht : b.title = some t) (hc : b.content = some c)
    (ht1 : jsTrim t ≠ "") (ht2 : strLen (jsTrim t) ≤ 200)
    (hc1 : jsTrim c ≠ "") (hc2 : strLen (jsTrim c) ≤ 10000)
    (htags : ∀ ts, b.tags = some ts → ts.length ≤ 10) :
    ∃ d : NoteDoc, createNoteModel b oid now = some d ∧
      d.toJson.lookup "id" = some (.str (objectIdString oid)) ∧
      objectIdString oid ≠ "" ∧
      d.createdAt = d.updatedAt ∧
      d.isArchived = false ∧
      d.tags = (match b.tags with
        | some ts => (ts.map jsTrim).filter (fun x => x != "")
        | none => []) := by
  have hvt : validTitle (jsTrim t) = true := by
    unfold validTitle
    rw [jsTrim_idem]
    simp [Bool.and_eq_true, bne_iff_ne, ht1, ht2]
  have hvc : validContent (jsTrim c) = true := by
    unfold validContent
    rw [jsTrim_idem]
    simp [Bool.and_eq_true, bne_iff_ne, hc1, hc2]
  have htlen : (cleanTags b.tags).length ≤ 10 := by
    cases hbt : b.tags with
    | none => simp [cleanTags]
    | some ts =>
        have hts := htags ts hbt
        calc (cleanTags (some ts)).length
            ≤ (ts.map jsTrim).length := List.length_filter_le _ _
          _ = ts.length := List.length_map _ _
          _ ≤ 10 := hts
  have hres : createNoteModel b oid now = some
      { _id := oid, title := jsTrim (jsTrim t), content := jsTrim (jsTrim c),
        tags := cleanTags b.tags, isArchived := false,
        createdAt := now, updatedAt := now, version := 0 } := by
    unfold createNoteModel mongooseSaveNew
    rw [ht, hc]
    simp only [Option.map_some']
    simp [hvt, hvc, htlen]
  refine ⟨_, hres, rfl, objectIdString_ne_empty oid, rfl, rfl, ?_⟩
  cases hbt : b.tags <;> simp [cleanTags, hbt]

/-- Claim C7, witness: the spec's create scenario with tags
`[" a", "b ", " "]`. -/
theorem createNote_spec_witness :
    (groceriesBody.title = some "Groceries" ∧
     jsTrim "Groceries" ≠ "" ∧ jsTrim "Milk, eggs" ≠ "") ∧
    (∃ d : NoteDoc, createNoteModel groceriesBody 1 5 = some d ∧
      d.toJson.lookup "id" = some (.str (objectIdString 1)) ∧
      objectIdString 1 ≠ "" ∧
      d.createdAt = d.updatedAt ∧
      d.isArchived = false ∧
      d.tags = (match groceriesBody.tags with
        | some ts => (ts.map jsTrim).filter (fun x => x != "")
        | none => [])) :=
  ⟨⟨by decide, by decide, by decide⟩,
   createNote_spec groceriesBody "Groceries" "Milk, eggs" 1 5 rfl rfl
     (by decide) (by decide) (by decide) (by decide)
     (by intro ts hts; simp [groceriesBody] at hts; subst hts; decide)⟩

/-- Claim C8: an update that touches only a subset of
title/content/tags/isArchived leaves every untouched field (and `createdAt`,
`_id`) unchanged in the returned post-update entity, and `updatedAt` is set
to the update time, hence strictly increases when the clock has advanced
past the stored `updatedAt`. -/
theorem updateNote_frame (store : List NoteDoc) (oid : Nat) (p : UpdateBody)
    (now : Nat) (d d' : NoteDoc) (s' : List NoteDoc)
    (hfind : findById store oid = some d)
    (hupd : updateNoteModel store oid p now = some (d', s'))
    (hclock : d.updatedAt < now) :
    (p.title = none → d'.title = d.title) ∧
    (p.content = none → d'.content = d.content) ∧
    (p.tags = none → d'.tags = d.tags) ∧
    (p.isArchived = none → d'.isArchived = d.isArchived) ∧
    d'.createdAt = d.createdAt ∧
    d'._id = d._id ∧
    d.updatedAt < d'.updatedAt := by
  unfold updateNoteModel at hupd
  rw [hfind] at hupd
  by_cases hv : patchValid p = true
  · simp only [hv, if_true, Option.some.injEq, Prod.mk.injEq] at hupd
    have hd' : d' = applyUpdate d p now := hupd.1.symm
    subst hd'
    refine ⟨?_, ?_, ?_, ?_, rfl, rfl, ?_⟩
    · intro h
      simp [applyUpdate, h]
    · intro h
      simp [applyUpdate, h]
    · intro h
      simp [applyUpdate, h]
    · intro h
      simp [applyUpdate, h]
    · simpa [applyUpdate] using hclock
  · simp [hv] at hupd

/-- Claim C8, witness: an archive-only patch on a one-note store at a later
time keeps title, content and tags, and bumps `updatedAt`. -/
theorem updateNote_frame_witness :
    (findById [mkDoc 3] 3 = some (mkDoc 3) ∧
     updateNoteModel [mkDoc 3] 3 archOnlyPatch 10 =
       some (mkDoc3Arch, [mkDoc3Arch]) ∧
     (mkDoc 3).updatedAt < 10) ∧
    ((archOnlyPatch.title = none → mkDoc3Arch.title = (mkDoc 3).title) ∧
     (archOnlyPatch.content = none → mkDoc3Arch.content = (mkDoc 3).content) ∧
     (archOnlyPatch.tags = none → mkDoc3Arch.tags = (mkDoc 3).tags) ∧
     (archOnlyPatch.isArchived = none →
       mkDoc3Arch.isArchived = (mkDoc 3).isArchived) ∧
     mkDoc3Arch.createdAt = (mkDoc 3).createdAt ∧
     mkDoc3Arch._id = (mkDoc 3)._id ∧
     (mkDoc 3).updatedAt < mkDoc3Arch.updatedAt) :=
  ⟨⟨by decide, by decide, by decide⟩,
   updateNote_frame [mkDoc 3] 3 archOnlyPatch 10 (mkDoc 3) mkDoc3Arch
     [mkDoc3Arch] (by decide) (by decide) (by decide)⟩

/-- Claim C9: toggling the archive flag twice on the same id returns the
note's `isArchived` to its original value (the toggle is an involution on
the flag). -/
theorem toggleArchive_involution (store : List NoteDoc) (oid n1 n2 : Nat)
    (d : NoteDoc) (h : findById store oid = some d) :
    ∃ (d1 : NoteDoc) (s1 : List NoteDoc) (d2 : NoteDoc) (s2 : List NoteDoc),
      toggleArchiveModel store oid n1 = some (d1, s1) ∧
      toggleArchiveModel s1 oid n2 = some (d2, s2) ∧
      d1.isArchived = !d.isArchived ∧
      d2.isArchived = d.isArchived := by
  have hid : d._id = oid := by
    unfold findById at h
    have hbeq := List.find?_some h
    exact eq_of_beq hbeq
  have h1 : toggleArchiveModel store oid n1 =
      some ({ d with isArchived := !d.isArchived, updatedAt := n1 },
        saveById store { d with isArchived := !d.isArchived, updatedAt := n1 }) := by
    unfold toggleArchiveModel
    rw [h]
  have hfind1 : findById
      (saveById store { d with isArchived := !d.isArchived, updatedAt := n1 })
      oid = some { d with isArchived := !d.isArchived, updatedAt := n1 } :=
    findById_saveById store oid d _ h hid
  have h2 : toggleArchiveModel
      (saveById store { d with isArchived := !d.isArchived, updatedAt := n1 })
      oid n2 =
      some ({ d with isArchived := !(!d.isArchived), updatedAt := n2 },
        saveById
          (saveById store { d with isArchived := !d.isArchived, updatedAt := n1 })
          { d with isArchived := !(!d.isArchived), updatedAt := n2 }) := by
    unfold toggleArchiveModel
    rw [hfind1]
  exact ⟨_, _, _, _, h1, h2, rfl, Bool.not_not d.isArchived⟩

/-- Claim C9, witness: toggling twice on a concrete one-note store. -/
theorem toggleArchive_involution_witness :
    findById [mkDoc 3] 3 = some (mkDoc 3) ∧
    (∃ (d1 : NoteDoc) (s1 : List NoteDoc) (d2 : NoteDoc) (s2 : List NoteDoc),
      toggleArchiveModel [mkDoc 3] 3 5 = some (d1, s1) ∧
      toggleArchiveModel s1 3 9 = some (d2, s2) ∧
      d1.isArchived = !(mkDoc 3).isArchived ∧
      d2.isArchived = (mkDoc 3).isArchived) :=
  ⟨by decide, toggleArchive_involution [mkDoc 3] 3 5 9 (mkDoc 3) (by decide)⟩

/-- Claim C10: on a confirmed delete the hook filters the cached list by the
id and decrements `totalCount` by exactly one, unconditionally — when no
cached entry carries the id, the list is unchanged while `totalCount` still
decreases. -/
theorem hookDeleteNote_spec (st : NotesHookState) (id : String) :
    (hookDeleteNote st id).pagination.totalCount =
      st.pagination.totalCount - 1 ∧
    (hookDeleteNote st id).notes = st.notes.filter (fun n => n.id != id) ∧
    ((∀ n ∈ st.notes, n.id ≠ id) → (hookDeleteNote st id).notes = st.notes) := by
  refine ⟨rfl, rfl, ?_⟩
  intro h
  show st.notes.filter (fun n => n.id != id) = st.notes
  rw [List.filter_eq_self]
  intro a ha
  simp [h a ha]

/-- Claim C10, witness: deleting an id absent from the cache leaves the list
unchanged and still lowers `totalCount` from 5 to 4. -/
theorem hookDeleteNote_spec_witness :
    ((hookDeleteNote stEx "zzz").pagination.totalCount =
       stEx.pagination.totalCount - 1 ∧
     (hookDeleteNote stEx "zzz").notes =
       stEx.notes.filter (fun n => n.id != "zzz") ∧
     ((∀ n ∈ stEx.notes, n.id ≠ "zzz") →
       (hookDeleteNote stEx "zzz").notes = stEx.notes)) ∧
    (hookDeleteNote stEx "zzz").notes = stEx.notes ∧
    (hookDeleteNote stEx "zzz").pagination.totalCount = 4 :=
  ⟨hookDeleteNote_spec stEx "zzz",
   (hookDeleteNote_spec stEx "zzz").2.2 (by decide),
   by decide⟩

end NotesApp
